import Mathlib

/-!
Verification of the transaction construction and signing engine
(`src/main.rs`): the RLP codec, the three transaction envelope encoders
(legacy / EIP-1559 / EIP-7702), the EIP-7702 authorization builder, address
derivation, nonce parsing and the top-level dispatch are embedded shallowly
as executable Lean definitions, and the specification's claims about them
are settled as theorems.

Bytes are modelled as `Nat` values below 256 inside `List Nat`; machine
integers (`U256`, `u64`, `u8`) are modelled as `Nat` (the encoders only read
their big-endian byte form, which is the same function on `Nat`). Panics in
the Rust source (`unwrap`, `expect`, `panic!`) are modelled as `Except`
errors carrying the panic message. The external libraries secp256k1 and
keccak256 are abstracted by a `Crypto` record of function parameters.
-/

/-- Minimal big-endian byte form of a natural number, with a structural fuel
argument so that the definition reduces by kernel evaluation (the fuel `n`
always suffices for the value `n`). -/
def natToBEBytesAux : Nat → Nat → List Nat
  | _, 0 => []
  | 0, _ + 1 => []
  | fuel + 1, n + 1 => natToBEBytesAux fuel ((n + 1) / 256) ++ [(n + 1) % 256]

/-- Minimal big-endian byte form of a natural number: `0` becomes the empty
list, otherwise the usual base-256 digits with no leading zero. This is the
byte form `alloy_rlp` produces from `to_be_bytes` after stripping leading
zero bytes. -/
def natToBEBytes (n : Nat) : List Nat :=
  natToBEBytesAux n n

/-- Big-endian interpretation of a byte list, as in `U256::from_be_bytes`. -/
def beBytesToNat (bs : List Nat) : Nat :=
  bs.foldl (fun acc b => 256 * acc + b) 0

/-- The `alloy_rlp::Header` encoding: a byte-string (`isList = false`) or
list (`isList = true`) prefix for a payload of `len` bytes. Short form for
`len < 56`, otherwise the long form whose prefix counts the bytes of the
big-endian length. -/
def rlpHeader (isList : Bool) (len : Nat) : List Nat :=
  if len < 56 then [(if isList then 0xc0 else 0x80) + len]
  else ((if isList then 0xf7 else 0xb7) + (natToBEBytes len).length) :: natToBEBytes len

/-- RLP encoding of a byte string, as in `alloy_rlp`'s `Encodable for [u8]`:
a single byte below `0x80` is emitted as itself, otherwise a string header
followed by the raw bytes. -/
def rlpEncodeBytes (bs : List Nat) : List Nat :=
  if bs.length = 1 ∧ bs.headD 0 < 0x80 then bs
  else rlpHeader false bs.length ++ bs

/-- RLP encoding of an unsigned integer, as in `alloy_rlp`'s integer
impls (`u8`, `u64`, `U256`): minimal big-endian bytes encoded as a byte
string, so `0` becomes `0x80`. -/
def rlpEncodeNat (n : Nat) : List Nat :=
  rlpEncodeBytes (natToBEBytes n)

/-- RLP encoding of a list from the already-encoded items: list header over
the concatenated item encodings. -/
def rlpList (items : List (List Nat)) : List Nat :=
  rlpHeader true items.flatten.length ++ items.flatten

/-- A 20-byte account address (`alloy::primitives::Address`). -/
abbrev Address := { l : List Nat // l.length = 20 }

/-- Rust `Address::default()`: twenty zero bytes. -/
def zeroAddress : Address := ⟨List.replicate 20 0, by simp⟩

/-- RLP encoding of an `Address` (`FixedBytes<20>` encodes as its byte
slice). -/
def encodeAddress (a : Address) : List Nat :=
  rlpEncodeBytes a.val

/-- Value of one hexadecimal digit character, if it is one. -/
def hexDigit (c : Char) : Option Nat :=
  if '0' ≤ c ∧ c ≤ '9' then some (c.toNat - '0'.toNat)
  else if 'a' ≤ c ∧ c ≤ 'f' then some (c.toNat - 'a'.toNat + 10)
  else if 'A' ≤ c ∧ c ≤ 'F' then some (c.toNat - 'A'.toNat + 10)
  else none

/-- Rust `hex::decode` on a character list: pairs of hex digits to bytes, failing
on a non-digit or an odd length. -/
def hexDecodeList : List Char → Option (List Nat)
  | [] => some []
  | [_] => none
  | c1 :: c2 :: rest => do
    let hi ← hexDigit c1
    let lo ← hexDigit c2
    let r ← hexDecodeList rest
    pure ((16 * hi + lo) :: r)

/-- Rust `str::trim_start_matches("0x")`: repeatedly strips a leading `0x`. -/
def trimStart0x : List Char → List Char
  | '0' :: 'x' :: rest => trimStart0x rest
  | l => l

/-- Base-16 string-to-number parsing as in `from_str_radix(.., 16)`:
every character must be a hex digit and the string must be nonempty. -/
def parseRadix16 (cs : List Char) : Option Nat :=
  match cs with
  | [] => none
  | _ =>
    cs.foldl (fun acc c => do
      let a ← acc
      let d ← hexDigit c
      pure (16 * a + d)) (some 0)

/-- Rust `U256::from_str_radix(s, 16)`: base-16 parsing that also fails when the
value overflows 256 bits. -/
def fromStrRadix16U256 (cs : List Char) : Option Nat :=
  match parseRadix16 cs with
  | none => none
  | some n => if n < 2 ^ 256 then some n else none

/-- Modelled from the spec: the error taxonomy of §7 (`InvalidKey`,
`InvalidDigest`, `UnsupportedTransactionKind`) is not a type of the source,
whose failures are all panics; panics whose message names the invalid-key or
invalid-digest precondition are mapped to the corresponding typed
constructor, and every other panic to `rustPanic` with its message. -/
inductive Err where
  | invalidKey (msg : String)
  | invalidDigest (msg : String)
  | unsupportedTransactionKind
  | rustPanic (msg : String)
deriving DecidableEq

deriving instance DecidableEq for Except

/-- The external cryptographic collaborators (secp256k1 and keccak256),
abstracted as function parameters: `keccak` is the 32-byte hash,
`secretKeyValid` is success of `SecretKey::from_slice`, `pubkeyUncompressed`
is the 65-byte uncompressed public key of a valid secret key, and
`signRecoverable digest key` is `sign_ecdsa_recoverable` followed by
`serialize_compact`, returning the recovery id and the 64-byte compact
signature. -/
structure Crypto where
  keccak : List Nat → List Nat
  secretKeyValid : List Nat → Bool
  pubkeyUncompressed : List Nat → List Nat
  signRecoverable : List Nat → List Nat → Nat × List Nat

/-- Rust `bytes32_to_u256`: big-endian conversion of exactly 32 bytes; the
source's `expect` on the length is modelled as an error. -/
def bytes32_to_u256 (bytes : List Nat) : Except Err Nat :=
  if bytes.length = 32 then .ok (beBytesToNat bytes)
  else .error (.rustPanic "slice must be 32 bytes")

/-- Rust `Address::from_slice`: succeeds exactly on 20 bytes. -/
def Address.from_slice (bs : List Nat) : Except Err Address :=
  if h : bs.length = 20 then .ok ⟨bs, h⟩
  else .error (.rustPanic "from_slice length mismatch")

/-- Rust `Address::from_hex`: optional `0x` prefix, then hex decoding to exactly
20 bytes. -/
def Address.from_hex (s : String) : Except Err Address :=
  match hexDecodeList (trimStart0x s.toList) with
  | none => .error (.rustPanic "invalid hex string")
  | some bs => Address.from_slice bs

/-- The legacy (EIP-155) transaction container of the source. -/
structure LegacyTransaction where
  nonce : Nat
  gas_price : Nat
  gas_limit : Nat
  «to» : Option Address
  value : Nat
  data : List Nat
  v : Nat
  r : Nat
  s : Nat
deriving DecidableEq

/-- The legacy encoder's treatment of the `to` field:
`self.to.unwrap_or_default().encode(..)`, so an absent address falls back to
`Address::default()` (the zero address) and is encoded as a 20-byte
string. -/
def LegacyTransaction.encodeTo («to» : Option Address) : List Nat :=
  encodeAddress («to».getD zeroAddress)

/-- Rust `LegacyTransaction::rlp_encode_unsigned`: the nine EIP-155 fields
followed by a list header over the payload. -/
def LegacyTransaction.rlp_encode_unsigned (tx : LegacyTransaction) (chain_id : Nat) :
    List Nat :=
  let buffer := rlpEncodeNat tx.nonce ++ rlpEncodeNat tx.gas_price ++
    rlpEncodeNat tx.gas_limit ++ LegacyTransaction.encodeTo tx.«to» ++
    rlpEncodeNat tx.value ++ rlpEncodeBytes tx.data ++
    rlpEncodeNat chain_id ++ rlpEncodeNat 0 ++ rlpEncodeNat 0
  rlpHeader true buffer.length ++ buffer

/-- Rust `LegacyTransaction::rlp_encode_signed`: the six body fields followed by
`v`, `r`, `s`, wrapped in a list header; no type byte. -/
def LegacyTransaction.rlp_encode_signed (tx : LegacyTransaction) : List Nat :=
  let buffer := rlpEncodeNat tx.nonce ++ rlpEncodeNat tx.gas_price ++
    rlpEncodeNat tx.gas_limit ++ LegacyTransaction.encodeTo tx.«to» ++
    rlpEncodeNat tx.value ++ rlpEncodeBytes tx.data ++
    rlpEncodeNat tx.v ++ rlpEncodeNat tx.r ++ rlpEncodeNat tx.s
  rlpHeader true buffer.length ++ buffer

/-- The `to` encoding of the typed-transaction encoders: a present address
as a 20-byte string, `None` as the empty byte string. -/
def eipEncodeTo : Option Address → List Nat
  | some a => encodeAddress a
  | none => rlpEncodeBytes []

/-- The EIP-1559 (type 2) transaction container of the source. The
`access_list` field exists but is never read by the encoders. -/
structure Eip1559Transaction where
  chain_id : Nat
  nonce : Nat
  max_priority_fee_per_gas : Nat
  max_fee_per_gas : Nat
  gas_limit : Nat
  «to» : Option Address
  value : Nat
  data : List Nat
  access_list : List (Address × List Nat)
  y_parity : Nat
  r : Nat
  s : Nat
deriving DecidableEq

/-- Rust `Eip1559Transaction::rlp_internal`: the eight body fields followed by
the always-empty access-list header `0xc0`. -/
def Eip1559Transaction.rlp_internal (tx : Eip1559Transaction) : List Nat :=
  rlpEncodeNat tx.chain_id ++ rlpEncodeNat tx.nonce ++
    rlpEncodeNat tx.max_priority_fee_per_gas ++ rlpEncodeNat tx.max_fee_per_gas ++
    rlpEncodeNat tx.gas_limit ++ eipEncodeTo tx.«to» ++
    rlpEncodeNat tx.value ++ rlpEncodeBytes tx.data ++
    rlpHeader true 0

/-- Rust `Eip1559Transaction::rlp_encode_unsigned`: type byte `0x02`, then a list
header over the internal payload. -/
def Eip1559Transaction.rlp_encode_unsigned (tx : Eip1559Transaction) : List Nat :=
  let buffer := tx.rlp_internal
  0x02 :: (rlpHeader true buffer.length ++ buffer)

/-- Rust `Eip1559Transaction::rlp_encode_signed`: type byte `0x02`, then a list
header over the internal payload extended with `y_parity`, `r`, `s`. -/
def Eip1559Transaction.rlp_encode_signed (tx : Eip1559Transaction) : List Nat :=
  let buffer := tx.rlp_internal ++ rlpEncodeNat tx.y_parity ++
    rlpEncodeNat tx.r ++ rlpEncodeNat tx.s
  0x02 :: (rlpHeader true buffer.length ++ buffer)

/-- An EIP-7702 authorization entry of the source: the signed
(chainId, delegate address, nonce) triple. -/
structure Authorization7702 where
  chain_id : Nat
  address : Address
  nonce : Nat
  y_parity : Nat
  r : Nat
  s : Nat
deriving DecidableEq

/-- The `Encodable` impl for `Authorization7702`: the RLP list of the six
fields, with no magic byte. -/
def Authorization7702.encode (a : Authorization7702) : List Nat :=
  let buffer := rlpEncodeNat a.chain_id ++ encodeAddress a.address ++
    rlpEncodeNat a.nonce ++ rlpEncodeNat a.y_parity ++
    rlpEncodeNat a.r ++ rlpEncodeNat a.s
  rlpHeader true buffer.length ++ buffer

/-- The `Encodable` impl for `Vec<Authorization7702>`: a list header over
the concatenated entry encodings. -/
def encodeAuthorizationList (l : List Authorization7702) : List Nat :=
  let payload := (l.map Authorization7702.encode).flatten
  rlpHeader true payload.length ++ payload

/-- The authorization signing preimage built inside `Authorization7702::new`:
the magic byte `0x05` followed by the RLP list of
(chainId, address, nonce). -/
def authSigningPreimage (chain_id : Nat) (address : Address) (nonce : Nat) : List Nat :=
  let buffer := rlpEncodeNat chain_id ++ encodeAddress address ++ rlpEncodeNat nonce
  0x05 :: (rlpHeader true buffer.length ++ buffer)

/-- Rust `Authorization7702::new`: hash the magic-prefixed preimage, sign it with
the delegating key, and store the fields plus (yParity, r, s); the source's
`unwrap`/`expect` calls are modelled as errors. -/
def Authorization7702.new (C : Crypto) (chain_id : Nat) (address : Address)
    (nonce : Nat) (private_key_hex : String) : Except Err Authorization7702 :=
  let new_buffer := authSigningPreimage chain_id address nonce
  let message_hash := C.keccak new_buffer
  if message_hash.length = 32 then
    match hexDecodeList (trimStart0x private_key_hex.toList) with
    | none => .error (.rustPanic "invalid hex string")
    | some pk_bytes =>
      if C.secretKeyValid pk_bytes then
        let sig := C.signRecoverable message_hash pk_bytes
        match bytes32_to_u256 (sig.2.take 32), bytes32_to_u256 ((sig.2.drop 32).take 32) with
        | .ok r, .ok s => .ok { chain_id, address, nonce, y_parity := sig.1, r, s }
        | .error e, _ => .error e
        | _, .error e => .error e
      else .error (.invalidKey "invalid private key bytes")
  else .error (.invalidDigest "message digest not 32 bytes")

/-- The EIP-7702 (type 4) transaction container of the source. The
`access_list` field exists but is never read by the encoders. -/
structure Eip7702Transaction where
  chain_id : Nat
  nonce : Nat
  max_priority_fee_per_gas : Nat
  max_fee_per_gas : Nat
  gas_limit : Nat
  «to» : Option Address
  value : Nat
  data : List Nat
  access_list : List (Address × List Nat)
  authorization_list : List Authorization7702
  y_parity : Nat
  r : Nat
  s : Nat
deriving DecidableEq

/-- Rust `Eip7702Transaction::rlp_internal`: the eight body fields, the
always-empty access-list header `0xc0`, then the encoded authorization
list. -/
def Eip7702Transaction.rlp_internal (tx : Eip7702Transaction) : List Nat :=
  rlpEncodeNat tx.chain_id ++ rlpEncodeNat tx.nonce ++
    rlpEncodeNat tx.max_priority_fee_per_gas ++ rlpEncodeNat tx.max_fee_per_gas ++
    rlpEncodeNat tx.gas_limit ++ eipEncodeTo tx.«to» ++
    rlpEncodeNat tx.value ++ rlpEncodeBytes tx.data ++
    rlpHeader true 0 ++ encodeAuthorizationList tx.authorization_list

/-- Rust `Eip7702Transaction::rlp_encode_unsigned`: type byte `0x04`, then a list
header over the internal payload. -/
def Eip7702Transaction.rlp_encode_unsigned (tx : Eip7702Transaction) : List Nat :=
  let buffer := tx.rlp_internal
  0x04 :: (rlpHeader true buffer.length ++ buffer)

/-- Rust `Eip7702Transaction::rlp_encode_signed`: type byte `0x04`, then a list
header over the internal payload extended with `y_parity`, `r`, `s`. -/
def Eip7702Transaction.rlp_encode_signed (tx : Eip7702Transaction) : List Nat :=
  let buffer := tx.rlp_internal ++ rlpEncodeNat tx.y_parity ++
    rlpEncodeNat tx.r ++ rlpEncodeNat tx.s
  0x04 :: (rlpHeader true buffer.length ++ buffer)

/-- Rust `address_from_pkey`: strip the `0x` prefix, hex-decode, validate the
secret key, derive the uncompressed public key, drop its 1-byte tag,
keccak-hash the remaining 64 bytes and keep the last 20 as the address. -/
def address_from_pkey (C : Crypto) (private_key_hex : String) : Except Err Address :=
  match hexDecodeList (trimStart0x private_key_hex.toList) with
  | none => .error (.rustPanic "invalid hex string")
  | some pk_bytes =>
    if C.secretKeyValid pk_bytes then
      let pubkey_uncompressed := C.pubkeyUncompressed pk_bytes
      let hash := C.keccak (pubkey_uncompressed.drop 1)
      Address.from_slice (hash.drop 12)
    else .error (.invalidKey "invalid private key bytes")

/-- Rust `get_nonce`, with the JSON-RPC response's optional `result` string as
input: an absent result is an unwrap on an error (modelled as an error); a
present string is parsed as base-16 after stripping `0x`, falling back to
the default `0` on any parse failure (`unwrap_or_default`). -/
def get_nonce (result : Option String) : Except Err Nat :=
  match result with
  | none => .error (.rustPanic "No result from getTransactionCount")
  | some nonce_hex =>
    .ok ((fromStrRadix16U256 (trimStart0x nonce_hex.toList)).getD 0)

/-- The hardcoded sender private key of `main`. -/
def mainPkeyHex : String :=
  "0x0fad2ca996a24d116097c481c27a59652a3d3611dfed64d8f9bf86568b1f431d"

/-- The hardcoded delegating private key of the 7702 branch. -/
def secondPkeyHex : String :=
  "0x411bdd63dc116ba53e0e3fbe752ba21f869e272d4f544c8d545c617ce43f654e"

/-- The default delegate address string of the 7702 branch. -/
def defaultDelegateHex : String :=
  "0x4F747741EF10551969F9688a8264FC6bb337fA5f"

/-- The legacy branch's target address `0xaaaa..aa`. -/
def addrAAAA : Address := ⟨List.replicate 20 0xaa, by simp⟩

/-- The typed branches' target address `0xaaaa..bb`. -/
def addrAABB : Address := ⟨List.replicate 19 0xaa ++ [0xbb], by simp⟩

/-- The legacy transaction literal built in `main` before signing. -/
def legacyMainTx (nonce_value : Nat) : LegacyTransaction :=
  { nonce := nonce_value
    gas_price := 1000000000
    gas_limit := 21000
    «to» := some addrAAAA
    value := 1000000000000000000
    data := []
    v := 0, r := 0, s := 0 }

/-- The legacy branch of `main`: build, hash the unsigned EIP-155 payload,
sign, embed `v = recoveryId + 2*chainId + 35`, and re-serialize. -/
def legacyBranch (C : Crypto) (secret_key : List Nat) (nonce_value chain_id : Nat) :
    Except Err (LegacyTransaction × List Nat) :=
  let tx := legacyMainTx nonce_value
  let unsigned_rlp := tx.rlp_encode_unsigned chain_id
  let message_hash := C.keccak unsigned_rlp
  if message_hash.length = 32 then
    let sig := C.signRecoverable message_hash secret_key
    match bytes32_to_u256 (sig.2.take 32), bytes32_to_u256 ((sig.2.drop 32).take 32) with
    | .ok r, .ok s =>
      let tx : LegacyTransaction := { tx with r, s, v := sig.1 + 2 * chain_id + 35 }
      .ok (tx, tx.rlp_encode_signed)
    | .error e, _ => .error e
    | _, .error e => .error e
  else .error (.invalidDigest "message digest not 32 bytes")

/-- The EIP-1559 transaction literal built in `main` before signing. -/
def eip1559MainTx (chain_id nonce_value : Nat) : Eip1559Transaction :=
  { chain_id := chain_id
    nonce := nonce_value
    max_priority_fee_per_gas := 1000000000
    max_fee_per_gas := 1000000000
    gas_limit := 21000
    «to» := some addrAABB
    value := 1000000000000000000
    data := []
    access_list := []
    y_parity := 0, r := 0, s := 0 }

/-- The 1559 branch of `main`: build, hash the type-2 unsigned payload,
sign, embed `yParity = recoveryId`, and re-serialize. -/
def eip1559Branch (C : Crypto) (secret_key : List Nat) (nonce_value chain_id : Nat) :
    Except Err (Eip1559Transaction × List Nat) :=
  let tx := eip1559MainTx chain_id nonce_value
  let unsigned_rlp := tx.rlp_encode_unsigned
  let message_hash := C.keccak unsigned_rlp
  if message_hash.length = 32 then
    let sig := C.signRecoverable message_hash secret_key
    match bytes32_to_u256 (sig.2.take 32), bytes32_to_u256 ((sig.2.drop 32).take 32) with
    | .ok r, .ok s =>
      let tx : Eip1559Transaction := { tx with r, s, y_parity := sig.1 }
      .ok (tx, tx.rlp_encode_signed)
    | .error e, _ => .error e
    | _, .error e => .error e
  else .error (.invalidDigest "message digest not 32 bytes")

/-- The EIP-7702 transaction literal built in `main` before signing, around
a single-entry authorization list. -/
def eip7702MainTx (chain_id nonce_value : Nat) (authorization : Authorization7702) :
    Eip7702Transaction :=
  { chain_id := chain_id
    nonce := nonce_value
    max_priority_fee_per_gas := 1000000000
    max_fee_per_gas := 1000000000
    gas_limit := 46000
    «to» := some addrAABB
    value := 1000000000000000000
    data := []
    access_list := []
    authorization_list := [authorization]
    y_parity := 0, r := 0, s := 0 }

/-- The 7702 branch of `main`: derive the delegating account's address,
parse the delegate target, build and sign the authorization, embed it in a
type-4 transaction, hash, sign, embed `yParity = recoveryId`, and
re-serialize. The delegating account's nonce is an external lookup and is
passed in as `second_nonce`. -/
def eip7702Branch (C : Crypto) (secret_key : List Nat)
    (nonce_value chain_id second_nonce : Nat) (delegate_to_arg : Option String) :
    Except Err (Eip7702Transaction × List Nat) :=
  match address_from_pkey C secondPkeyHex with
  | .error e => .error e
  | .ok _second_address =>
    match Address.from_hex (delegate_to_arg.getD defaultDelegateHex) with
    | .error e => .error e
    | .ok delegate_to =>
      match Authorization7702.new C 0 delegate_to second_nonce secondPkeyHex with
      | .error e => .error e
      | .ok authorization =>
        let tx := eip7702MainTx chain_id nonce_value authorization
        let unsigned_rlp := tx.rlp_encode_unsigned
        let message_hash := C.keccak unsigned_rlp
        if message_hash.length = 32 then
          let sig := C.signRecoverable message_hash secret_key
          match bytes32_to_u256 (sig.2.take 32), bytes32_to_u256 ((sig.2.drop 32).take 32) with
          | .ok r, .ok s =>
            let tx : Eip7702Transaction := { tx with r, s, y_parity := sig.1 }
            .ok (tx, tx.rlp_encode_signed)
          | .error e, _ => .error e
          | _, .error e => .error e
        else .error (.invalidDigest "message digest not 32 bytes")

/-- The body of `main` after the external nonce lookups: parse the sender
key, derive its address, dispatch on `tx_type` to the three branches, and
panic with `"bad"` on any other kind, yielding the signed raw bytes. -/
def mainDispatch (C : Crypto) (tx_type : String) (delegate_to : Option String)
    (nonce_value second_nonce : Nat) : Except Err (List Nat) :=
  match hexDecodeList (trimStart0x mainPkeyHex.toList) with
  | none => .error (.rustPanic "invalid hex string")
  | some pk_bytes =>
    if C.secretKeyValid pk_bytes then
      match address_from_pkey C mainPkeyHex with
      | .error e => .error e
      | .ok _from_addr =>
        let chain_id := 1337
        if tx_type = "legacy" then
          match legacyBranch C pk_bytes nonce_value chain_id with
          | .ok p => .ok p.2
          | .error e => .error e
        else if tx_type = "1559" then
          match eip1559Branch C pk_bytes nonce_value chain_id with
          | .ok p => .ok p.2
          | .error e => .error e
        else if tx_type = "7702" then
          match eip7702Branch C pk_bytes nonce_value chain_id second_nonce delegate_to with
          | .ok p => .ok p.2
          | .error e => .error e
        else .error (.rustPanic "bad")
    else .error (.invalidKey "invalid private key bytes")

/-- A concrete instance of the cryptographic collaborators, used to witness
the theorems at evaluable inputs. -/
def cryptoFix : Crypto :=
  { keccak := fun _ => List.replicate 32 7
    secretKeyValid := fun _ => true
    pubkeyUncompressed := fun _ => 4 :: List.replicate 64 1
    signRecoverable := fun _ _ => (1, List.replicate 64 2) }

/-- The fuel recursion at zero value returns the empty list. -/
theorem natToBEBytesAux_zero (f : Nat) : natToBEBytesAux f 0 = [] := by
  cases f <;> rfl

/-- The fuel recursion's step equation. -/
theorem natToBEBytesAux_succ (f n : Nat) :
    natToBEBytesAux (f + 1) (n + 1) =
      natToBEBytesAux f ((n + 1) / 256) ++ [(n + 1) % 256] := rfl

/-- Any sufficient fuel computes the same byte form. -/
theorem natToBEBytesAux_congr (n : Nat) : ∀ f1 f2, n ≤ f1 → n ≤ f2 →
    natToBEBytesAux f1 n = natToBEBytesAux f2 n := by
  induction n using Nat.strong_induction_on with
  | _ n ih =>
  intro f1 f2 h1 h2
  cases n with
  | zero => rw [natToBEBytesAux_zero, natToBEBytesAux_zero]
  | succ m =>
    cases f1 with
    | zero => omega
    | succ g1 =>
      cases f2 with
      | zero => omega
      | succ g2 =>
        rw [natToBEBytesAux_succ, natToBEBytesAux_succ]
        congr 1
        exact ih ((m + 1) / 256) (by omega) g1 g2 (by omega) (by omega)

/-- The big-endian byte form of zero is empty. -/
theorem natToBEBytes_zero : natToBEBytes 0 = [] := rfl

/-- The big-endian byte form satisfies the base-256 recurrence. -/
theorem natToBEBytes_succ (n : Nat) :
    natToBEBytes (n + 1) = natToBEBytes ((n + 1) / 256) ++ [(n + 1) % 256] := by
  show natToBEBytesAux (n + 1) (n + 1) = _
  rw [natToBEBytesAux_succ]
  congr 1
  exact natToBEBytesAux_congr ((n + 1) / 256) n ((n + 1) / 256) (by omega) (le_refl _)

/-- A nonzero value has a nonempty byte form. -/
theorem natToBEBytes_ne_nil {n : Nat} (h : n ≠ 0) : natToBEBytes n ≠ [] := by
  cases n with
  | zero => exact absurd rfl h
  | succ m => rw [natToBEBytes_succ]; simp

/-- The byte form of a nonzero value in one byte is that byte. -/
theorem natToBEBytes_of_lt {n : Nat} (h0 : n ≠ 0) (h : n < 256) :
    natToBEBytes n = [n] := by
  cases n with
  | zero => exact absurd rfl h0
  | succ m =>
    rw [natToBEBytes_succ]
    have h1 : (m + 1) / 256 = 0 := by omega
    have h2 : (m + 1) % 256 = m + 1 := by omega
    rw [h1, h2, natToBEBytes_zero, List.nil_append]

/-- No leading zero byte: the byte form of a nonzero value starts with a
nonzero byte. -/
theorem natToBEBytes_head_ne_zero : ∀ n, n ≠ 0 → ∀ b bs,
    natToBEBytes n = b :: bs → b ≠ 0 := by
  intro n
  induction n using Nat.strong_induction_on with
  | _ n ih =>
  intro hn b bs heq
  cases n with
  | zero => exact absurd rfl hn
  | succ m =>
    rw [natToBEBytes_succ] at heq
    by_cases hq : (m + 1) / 256 = 0
    · rw [hq, natToBEBytes_zero, List.nil_append] at heq
      have hb : b = (m + 1) % 256 := by
        injection heq with h1 _
        exact h1.symm
      have : m + 1 < 256 := by omega
      omega
    · obtain ⟨b', bs', hcons⟩ :=
        List.exists_cons_of_ne_nil (natToBEBytes_ne_nil hq)
      rw [hcons, List.cons_append] at heq
      injection heq with h1 _
      exact h1 ▸ ih ((m + 1) / 256) (by omega) hq b' bs' hcons

/-- Appending one byte multiplies the big-endian value by 256 and adds it. -/
theorem beBytesToNat_append (xs : List Nat) (b : Nat) :
    beBytesToNat (xs ++ [b]) = 256 * beBytesToNat xs + b := by
  simp [beBytesToNat, List.foldl_append]

/-- The byte form is a big-endian representation: interpreting it back
yields the value. With `natToBEBytes_head_ne_zero` this makes it the minimal
big-endian form. -/
theorem beBytesToNat_natToBEBytes : ∀ n, beBytesToNat (natToBEBytes n) = n := by
  intro n
  induction n using Nat.strong_induction_on with
  | _ n ih =>
  cases n with
  | zero => rfl
  | succ m =>
    rw [natToBEBytes_succ, beBytesToNat_append, ih ((m + 1) / 256) (by omega)]
    omega

/-- A list header is nonempty and starts with a byte at or above `0xc0`. -/
theorem rlpHeader_true_head (len : Nat) :
    ∃ b rest, rlpHeader true len = b :: rest ∧ 0xc0 ≤ b := by
  by_cases h : len < 56
  · exact ⟨0xc0 + len, [], by simp [rlpHeader, h], by omega⟩
  · exact ⟨0xf7 + (natToBEBytes len).length, natToBEBytes len,
      by simp [rlpHeader, h], by omega⟩

/-- A 20-byte address encodes as the string prefix `0x94` followed by the
raw bytes, leading zeros included. -/
theorem encodeAddress_eq (a : Address) : encodeAddress a = 0x94 :: a.val := by
  have h := a.property
  simp [encodeAddress, rlpEncodeBytes, rlpHeader, h]

/-- The canonical empty-list encoding is the single byte `0xc0`. -/
theorem rlpList_nil : rlpList [] = [0xc0] := rfl

/-- Claim C7: for every unsigned integer field, the RLP encoding uses the
minimal big-endian byte form with no leading zero byte (its head byte is
nonzero and it re-interprets to the value); the integer zero encodes to the
single byte `0x80`; and a single byte below `0x80` is emitted as itself with
no prefix byte. -/
theorem claim_C7 :
    (∀ n, n ≠ 0 →
      (∀ b bs, natToBEBytes n = b :: bs → b ≠ 0) ∧
      beBytesToNat (natToBEBytes n) = n ∧
      rlpEncodeNat n = rlpEncodeBytes (natToBEBytes n)) ∧
    rlpEncodeNat 0 = [0x80] ∧
    (∀ n, n ≠ 0 → n < 0x80 → rlpEncodeNat n = [n]) := by
  refine ⟨fun n hn => ⟨natToBEBytes_head_ne_zero n hn,
    beBytesToNat_natToBEBytes n, rfl⟩, by decide, fun n hn hlt => ?_⟩
  rw [rlpEncodeNat, natToBEBytes_of_lt hn (by omega)]
  simp [rlpEncodeBytes, hlt]

/-- Witness for C7 at the concrete values 2709 (two bytes `0x0a95`) and the
single-byte parity value 1. -/
theorem claim_C7_witness :
    ((10 : Nat) ≠ 0) ∧ beBytesToNat (natToBEBytes 2709) = 2709 ∧
      rlpEncodeNat 1 = [1] :=
  ⟨(claim_C7.1 2709 (by decide)).1 10 [149] (by decide),
   (claim_C7.1 2709 (by decide)).2.1,
   claim_C7.2.2 1 (by decide) (by decide)⟩

/-- Claim C5 counterexample: in the legacy encoder an absent `to` address
does NOT encode as the empty byte string — `to.unwrap_or_default()`
substitutes the 20-byte zero address, so the field encodes as `0x94`
followed by twenty zero bytes, as the full unsigned serialization of a
concrete legacy transaction with `to = none` shows. -/
theorem claim_C5_counterexample :
    LegacyTransaction.encodeTo none = 0x94 :: List.replicate 20 0 ∧
    LegacyTransaction.encodeTo none ≠ rlpEncodeBytes [] ∧
    ({ nonce := 0, gas_price := 0, gas_limit := 0, «to» := none, value := 0,
       data := [], v := 0, r := 0, s := 0 } : LegacyTransaction).rlp_encode_unsigned 1 =
      [0xdd, 0x80, 0x80, 0x80, 0x94] ++ List.replicate 20 0 ++
        [0x80, 0x80, 0x01, 0x80, 0x80] := by
  refine ⟨by decide, by decide, by decide⟩

/-- Claim C5 as amended: in the EIP-1559 and EIP-7702 encoders an absent
`to` address encodes as the empty byte string `0x80`; in the legacy encoder
it is replaced by the default zero address and encodes as a 20-byte string;
a present 20-byte address always encodes as `0x94` followed by its 20 raw
bytes, leading zeros preserved. -/
theorem claim_C5_amended :
    eipEncodeTo none = [0x80] ∧
    (∀ a : Address, eipEncodeTo (some a) = 0x94 :: a.val) ∧
    LegacyTransaction.encodeTo none = 0x94 :: List.replicate 20 0 ∧
    (∀ a : Address, LegacyTransaction.encodeTo (some a) = 0x94 :: a.val) :=
  ⟨by decide, fun a => encodeAddress_eq a, by decide, fun a => encodeAddress_eq a⟩

/-- Claim C6: for both typed transaction kinds, the access-list position of
the serialization holds the canonical empty-list byte `0xc0` whatever the
logical `access_list` field holds, and two envelopes differing only in
`access_list` serialize identically (unsigned and signed). -/
theorem claim_C6 (t2 : Eip1559Transaction) (a1 a2 : List (Address × List Nat))
    (t4 : Eip7702Transaction) (b1 b2 : List (Address × List Nat)) :
    ({ t2 with access_list := a1 }).rlp_encode_unsigned =
      ({ t2 with access_list := a2 }).rlp_encode_unsigned ∧
    ({ t2 with access_list := a1 }).rlp_encode_signed =
      ({ t2 with access_list := a2 }).rlp_encode_signed ∧
    ({ t4 with access_list := b1 }).rlp_encode_unsigned =
      ({ t4 with access_list := b2 }).rlp_encode_unsigned ∧
    ({ t4 with access_list := b1 }).rlp_encode_signed =
      ({ t4 with access_list := b2 }).rlp_encode_signed ∧
    t2.rlp_internal =
      rlpEncodeNat t2.chain_id ++ rlpEncodeNat t2.nonce ++
      rlpEncodeNat t2.max_priority_fee_per_gas ++ rlpEncodeNat t2.max_fee_per_gas ++
      rlpEncodeNat t2.gas_limit ++ eipEncodeTo t2.«to» ++ rlpEncodeNat t2.value ++
      rlpEncodeBytes t2.data ++ [0xc0] ∧
    t4.rlp_internal =
      rlpEncodeNat t4.chain_id ++ rlpEncodeNat t4.nonce ++
      rlpEncodeNat t4.max_priority_fee_per_gas ++ rlpEncodeNat t4.max_fee_per_gas ++
      rlpEncodeNat t4.gas_limit ++ eipEncodeTo t4.«to» ++ rlpEncodeNat t4.value ++
      rlpEncodeBytes t4.data ++ [0xc0] ++
      encodeAuthorizationList t4.authorization_list := by
  refine ⟨rfl, rfl, rfl, rfl, ?_, ?_⟩ <;>
    simp [Eip1559Transaction.rlp_internal, Eip7702Transaction.rlp_internal, rlpHeader]

/-- Claim C1: the serialized byte sequence of a typed transaction, unsigned
and signed, is the single type-prefix byte (`0x02` for type 2, `0x04` for
type 4) consed onto the RLP-list encoding of the variant's field list; for
type 4 the signed list is (chainId, nonce, maxPriorityFeePerGas,
maxFeePerGas, gasLimit, to, value, data, emptyAccessList,
authorizationList, yParity, r, s) in that order. -/
theorem claim_C1 (t2 : Eip1559Transaction) (t4 : Eip7702Transaction) :
    t2.rlp_encode_unsigned = 0x02 :: rlpList [rlpEncodeNat t2.chain_id,
      rlpEncodeNat t2.nonce, rlpEncodeNat t2.max_priority_fee_per_gas,
      rlpEncodeNat t2.max_fee_per_gas, rlpEncodeNat t2.gas_limit,
      eipEncodeTo t2.«to», rlpEncodeNat t2.value, rlpEncodeBytes t2.data,
      rlpList []] ∧
    t2.rlp_encode_signed = 0x02 :: rlpList [rlpEncodeNat t2.chain_id,
      rlpEncodeNat t2.nonce, rlpEncodeNat t2.max_priority_fee_per_gas,
      rlpEncodeNat t2.max_fee_per_gas, rlpEncodeNat t2.gas_limit,
      eipEncodeTo t2.«to», rlpEncodeNat t2.value, rlpEncodeBytes t2.data,
      rlpList [], rlpEncodeNat t2.y_parity, rlpEncodeNat t2.r,
      rlpEncodeNat t2.s] ∧
    t4.rlp_encode_unsigned = 0x04 :: rlpList [rlpEncodeNat t4.chain_id,
      rlpEncodeNat t4.nonce, rlpEncodeNat t4.max_priority_fee_per_gas,
      rlpEncodeNat t4.max_fee_per_gas, rlpEncodeNat t4.gas_limit,
      eipEncodeTo t4.«to», rlpEncodeNat t4.value, rlpEncodeBytes t4.data,
      rlpList [], encodeAuthorizationList t4.authorization_list] ∧
    t4.rlp_encode_signed = 0x04 :: rlpList [rlpEncodeNat t4.chain_id,
      rlpEncodeNat t4.nonce, rlpEncodeNat t4.max_priority_fee_per_gas,
      rlpEncodeNat t4.max_fee_per_gas, rlpEncodeNat t4.gas_limit,
      eipEncodeTo t4.«to», rlpEncodeNat t4.value, rlpEncodeBytes t4.data,
      rlpList [], encodeAuthorizationList t4.authorization_list,
      rlpEncodeNat t4.y_parity, rlpEncodeNat t4.r, rlpEncodeNat t4.s] := by
  refine ⟨?_, ?_, ?_, ?_⟩ <;>
    simp [Eip1559Transaction.rlp_encode_unsigned, Eip1559Transaction.rlp_encode_signed,
      Eip7702Transaction.rlp_encode_unsigned, Eip7702Transaction.rlp_encode_signed,
      Eip1559Transaction.rlp_internal, Eip7702Transaction.rlp_internal,
      rlpList, rlpHeader, List.append_assoc]

/-- Anything starting with a list header has a first byte at or above
`0xc0`. -/
theorem rlpHeader_append_headD (L : Nat) (payload : List Nat) :
    0xc0 ≤ (rlpHeader true L ++ payload).headD 0 := by
  obtain ⟨b, rest, hh, hb⟩ := rlpHeader_true_head L
  rw [hh]
  simpa using hb

/-- A 64-byte list's first 32 bytes are 32 bytes. -/
theorem take32_length {l : List Nat} (h : l.length = 64) :
    (l.take 32).length = 32 := by
  rw [List.length_take, h]
  omega

/-- A 64-byte list's second 32 bytes are 32 bytes. -/
theorem drop_take32_length {l : List Nat} (h : l.length = 64) :
    ((l.drop 32).take 32).length = 32 := by
  rw [List.length_take, List.length_drop, h]
  omega

/-- Claim C2: the authorization signing preimage is the single magic byte
`0x05` followed by the RLP list (chainId, address, nonce); a successfully
built authorization keeps those fields; and its stored entry is the RLP
list of the six fields with no leading `0x05` byte (its first byte is a
list prefix at or above `0xc0`). -/
theorem claim_C2 (C : Crypto) (chain_id : Nat) (address : Address) (nonce : Nat)
    (key : String) (a : Authorization7702)
    (h : Authorization7702.new C chain_id address nonce key = .ok a) :
    authSigningPreimage chain_id address nonce =
      0x05 :: rlpList [rlpEncodeNat chain_id, encodeAddress address,
        rlpEncodeNat nonce] ∧
    (a.chain_id = chain_id ∧ a.address = address ∧ a.nonce = nonce) ∧
    Authorization7702.encode a = rlpList [rlpEncodeNat a.chain_id,
      encodeAddress a.address, rlpEncodeNat a.nonce, rlpEncodeNat a.y_parity,
      rlpEncodeNat a.r, rlpEncodeNat a.s] ∧
    0xc0 ≤ (Authorization7702.encode a).headD 0 ∧
    (Authorization7702.encode a).headD 0 ≠ 0x05 := by
  have hhead : 0xc0 ≤ (Authorization7702.encode a).headD 0 := by
    simp only [Authorization7702.encode]
    exact rlpHeader_append_headD _ _
  refine ⟨?_, ?_, ?_, hhead, by omega⟩
  · simp [authSigningPreimage, rlpList, List.append_assoc]
  · simp only [Authorization7702.new] at h
    repeat' split at h
    all_goals first
      | (injection h with h2; subst h2; exact ⟨rfl, rfl, rfl⟩)
      | simp at h
  · simp [Authorization7702.encode, rlpList, List.append_assoc]

/-- Witness for C2: the authorization built from the concrete crypto
instance at chainId 0, the zero address, nonce 0 and key `"00"`. -/
theorem claim_C2_witness :
    ∃ a, Authorization7702.new cryptoFix 0 zeroAddress 0 "00" = .ok a ∧
      a.chain_id = 0 ∧ a.address = zeroAddress ∧ a.nonce = 0 ∧
      0xc0 ≤ (Authorization7702.encode a).headD 0 := by
  obtain ⟨x, hx⟩ : ∃ x, Authorization7702.new cryptoFix 0 zeroAddress 0 "00" = .ok x :=
    ⟨_, rfl⟩
  have h := claim_C2 cryptoFix 0 zeroAddress 0 "00" x hx
  exact ⟨x, hx, h.2.1.1, h.2.1.2.1, h.2.1.2.2, h.2.2.2.1⟩

/-- The legacy transaction as signed by the legacy branch: the main-branch
literal completed with `r`, `s` from the compact signature over the keccak
hash of the unsigned EIP-155 serialization, and
`v = recoveryId + 2*chainId + 35`. -/
def legacySignedTx (C : Crypto) (key : List Nat) (nonce_value chain_id : Nat) :
    LegacyTransaction :=
  let sig := C.signRecoverable
    (C.keccak ((legacyMainTx nonce_value).rlp_encode_unsigned chain_id)) key
  { legacyMainTx nonce_value with
    v := sig.1 + 2 * chain_id + 35
    r := beBytesToNat (sig.2.take 32)
    s := beBytesToNat ((sig.2.drop 32).take 32) }

/-- The legacy branch succeeds and produces exactly `legacySignedTx` and its
signed serialization, provided keccak returns 32 bytes and compact
signatures are 64 bytes. -/
theorem legacyBranch_eq (C : Crypto) (key : List Nat) (nonce_value chain_id : Nat)
    (h32 : ∀ x, (C.keccak x).length = 32)
    (h64 : ∀ d k, ((C.signRecoverable d k).2).length = 64) :
    legacyBranch C key nonce_value chain_id =
      .ok (legacySignedTx C key nonce_value chain_id,
        (legacySignedTx C key nonce_value chain_id).rlp_encode_signed) := by
  have ht := take32_length
    (h64 (C.keccak ((legacyMainTx nonce_value).rlp_encode_unsigned chain_id)) key)
  have hd := drop_take32_length
    (h64 (C.keccak ((legacyMainTx nonce_value).rlp_encode_unsigned chain_id)) key)
  simp [legacyBranch, legacySignedTx, bytes32_to_u256, h32, ht, hd]

/-- Claim C3: the legacy unsigned payload is the RLP list
(nonce, gasPrice, gasLimit, to, value, data, chainId, 0, 0); the signed
serialization is the RLP list (nonce, gasPrice, gasLimit, to, value, data,
v, r, s) whose first byte is a list prefix (no type byte); and the legacy
branch signs exactly the keccak hash of the unsigned serialized bytes,
returning the completed transaction and its signed bytes. -/
theorem claim_C3 (C : Crypto) (tx : LegacyTransaction)
    (key : List Nat) (nonce_value chain_id : Nat)
    (h32 : ∀ x, (C.keccak x).length = 32)
    (h64 : ∀ d k, ((C.signRecoverable d k).2).length = 64) :
    tx.rlp_encode_unsigned chain_id = rlpList [rlpEncodeNat tx.nonce,
      rlpEncodeNat tx.gas_price, rlpEncodeNat tx.gas_limit,
      LegacyTransaction.encodeTo tx.«to», rlpEncodeNat tx.value,
      rlpEncodeBytes tx.data, rlpEncodeNat chain_id, rlpEncodeNat 0,
      rlpEncodeNat 0] ∧
    tx.rlp_encode_signed = rlpList [rlpEncodeNat tx.nonce,
      rlpEncodeNat tx.gas_price, rlpEncodeNat tx.gas_limit,
      LegacyTransaction.encodeTo tx.«to», rlpEncodeNat tx.value,
      rlpEncodeBytes tx.data, rlpEncodeNat tx.v, rlpEncodeNat tx.r,
      rlpEncodeNat tx.s] ∧
    0xc0 ≤ (tx.rlp_encode_signed).headD 0 ∧
    legacyBranch C key nonce_value chain_id =
      .ok (legacySignedTx C key nonce_value chain_id,
        (legacySignedTx C key nonce_value chain_id).rlp_encode_signed) := by
  refine ⟨?_, ?_, ?_, legacyBranch_eq C key nonce_value chain_id h32 h64⟩
  · simp [LegacyTransaction.rlp_encode_unsigned, rlpList, List.append_assoc]
  · simp [LegacyTransaction.rlp_encode_signed, rlpList, List.append_assoc]
  · simp only [LegacyTransaction.rlp_encode_signed]
    exact rlpHeader_append_headD _ _

/-- Witness for C3 at the concrete crypto instance, key `[0]`, nonce 0 and
chain id 1337. -/
theorem claim_C3_witness :
    legacyBranch cryptoFix [0] 0 1337 =
      .ok (legacySignedTx cryptoFix [0] 0 1337,
        (legacySignedTx cryptoFix [0] 0 1337).rlp_encode_signed) :=
  (claim_C3 cryptoFix (legacyMainTx 0) [0] 0 1337
    (fun _ => rfl) (fun _ _ => rfl)).2.2.2

/-- The EIP-1559 transaction as signed by the 1559 branch: the main-branch
literal completed with `r`, `s` and `y_parity = recoveryId` from the compact
signature over the keccak hash of the type-2 unsigned serialization. -/
def eip1559SignedTx (C : Crypto) (key : List Nat) (nonce_value chain_id : Nat) :
    Eip1559Transaction :=
  let sig := C.signRecoverable
    (C.keccak ((eip1559MainTx chain_id nonce_value).rlp_encode_unsigned)) key
  { eip1559MainTx chain_id nonce_value with
    y_parity := sig.1
    r := beBytesToNat (sig.2.take 32)
    s := beBytesToNat ((sig.2.drop 32).take 32) }

/-- The authorization as built by `Authorization7702::new` from already
decoded key bytes: fields preserved, `y_parity = recoveryId` and `r`, `s`
from the compact signature over the keccak hash of the magic-prefixed
preimage. -/
def authSigned (C : Crypto) (chain_id : Nat) (address : Address) (nonce : Nat)
    (pk_bytes : List Nat) : Authorization7702 :=
  let sig := C.signRecoverable
    (C.keccak (authSigningPreimage chain_id address nonce)) pk_bytes
  { chain_id, address, nonce, y_parity := sig.1
    r := beBytesToNat (sig.2.take 32)
    s := beBytesToNat ((sig.2.drop 32).take 32) }

/-- The EIP-7702 transaction as signed by the 7702 branch around a given
authorization: the main-branch literal completed with `r`, `s` and
`y_parity = recoveryId` from the compact signature over the keccak hash of
the type-4 unsigned serialization. -/
def eip7702SignedTx (C : Crypto) (key : List Nat) (nonce_value chain_id : Nat)
    (auth : Authorization7702) : Eip7702Transaction :=
  let sig := C.signRecoverable
    (C.keccak ((eip7702MainTx chain_id nonce_value auth).rlp_encode_unsigned)) key
  { eip7702MainTx chain_id nonce_value auth with
    y_parity := sig.1
    r := beBytesToNat (sig.2.take 32)
    s := beBytesToNat ((sig.2.drop 32).take 32) }

/-- The byte value of the default delegate address string. -/
def delegateDefault : Address :=
  ⟨[0x4f, 0x74, 0x77, 0x41, 0xef, 0x10, 0x55, 0x19, 0x69, 0xf9,
    0x68, 0x8a, 0x82, 0x64, 0xfc, 0x6b, 0xb3, 0x37, 0xfa, 0x5f], by simp⟩

/-- The decoded bytes of the delegating private key. -/
def secondPkeyBytes : List Nat :=
  [0x41, 0x1b, 0xdd, 0x63, 0xdc, 0x11, 0x6b, 0xa5, 0x3e, 0x0e, 0x3f, 0xbe,
   0x75, 0x2b, 0xa2, 0x1f, 0x86, 0x9e, 0x27, 0x2d, 0x4f, 0x54, 0x4c, 0x8d,
   0x54, 0x5c, 0x61, 0x7c, 0xe4, 0x3f, 0x65, 0x4e]

/-- On a valid hex key whose scalar is accepted, `address_from_pkey`
returns the last 20 bytes of the keccak hash of the tag-stripped
uncompressed public key. -/
theorem address_from_pkey_ok (C : Crypto) (s : String) (pk_bytes : List Nat)
    (hhex : hexDecodeList (trimStart0x s.toList) = some pk_bytes)
    (hval : C.secretKeyValid pk_bytes = true)
    (h32 : ∀ x, (C.keccak x).length = 32) :
    address_from_pkey C s =
      .ok ⟨(C.keccak ((C.pubkeyUncompressed pk_bytes).drop 1)).drop 12,
        by rw [List.length_drop, h32]⟩ := by
  have hhex2 : hexDecodeList (trimStart0x s.data) = some pk_bytes := hhex
  simp [address_from_pkey, hhex, hhex2, hval, Address.from_slice,
    List.length_drop, h32]

/-- On a valid hex key whose scalar is accepted, `Authorization7702::new`
returns exactly `authSigned`. -/
theorem Authorization7702.new_eq (C : Crypto) (chain_id : Nat) (address : Address)
    (nonce : Nat) (key : String) (pk_bytes : List Nat)
    (hhex : hexDecodeList (trimStart0x key.toList) = some pk_bytes)
    (hval : C.secretKeyValid pk_bytes = true)
    (h32 : ∀ x, (C.keccak x).length = 32)
    (h64 : ∀ d k, ((C.signRecoverable d k).2).length = 64) :
    Authorization7702.new C chain_id address nonce key =
      .ok (authSigned C chain_id address nonce pk_bytes) := by
  have hhex2 : hexDecodeList (trimStart0x key.data) = some pk_bytes := hhex
  have ht := take32_length
    (h64 (C.keccak (authSigningPreimage chain_id address nonce)) pk_bytes)
  have hd := drop_take32_length
    (h64 (C.keccak (authSigningPreimage chain_id address nonce)) pk_bytes)
  simp [Authorization7702.new, authSigned, bytes32_to_u256, hhex, hhex2, hval,
    h32, h64, ht, hd]

/-- The 1559 branch succeeds and produces exactly `eip1559SignedTx` and its
signed serialization. -/
theorem eip1559Branch_eq (C : Crypto) (key : List Nat) (nonce_value chain_id : Nat)
    (h32 : ∀ x, (C.keccak x).length = 32)
    (h64 : ∀ d k, ((C.signRecoverable d k).2).length = 64) :
    eip1559Branch C key nonce_value chain_id =
      .ok (eip1559SignedTx C key nonce_value chain_id,
        (eip1559SignedTx C key nonce_value chain_id).rlp_encode_signed) := by
  have ht := take32_length
    (h64 (C.keccak ((eip1559MainTx chain_id nonce_value).rlp_encode_unsigned)) key)
  have hd := drop_take32_length
    (h64 (C.keccak ((eip1559MainTx chain_id nonce_value).rlp_encode_unsigned)) key)
  simp [eip1559Branch, eip1559SignedTx, bytes32_to_u256, h32, ht, hd]

/-- The 7702 branch succeeds and produces exactly `eip7702SignedTx` around
`authSigned`, plus its signed serialization. -/
theorem eip7702Branch_eq (C : Crypto) (key : List Nat)
    (nonce_value chain_id second_nonce : Nat) (delegate_to_arg : Option String)
    (dAddr : Address) (spk_bytes : List Nat)
    (hhex2 : hexDecodeList (trimStart0x secondPkeyHex.toList) = some spk_bytes)
    (hval2 : C.secretKeyValid spk_bytes = true)
    (harg : Address.from_hex (delegate_to_arg.getD defaultDelegateHex) = .ok dAddr)
    (h32 : ∀ x, (C.keccak x).length = 32)
    (h64 : ∀ d k, ((C.signRecoverable d k).2).length = 64) :
    eip7702Branch C key nonce_value chain_id second_nonce delegate_to_arg =
      .ok (eip7702SignedTx C key nonce_value chain_id
          (authSigned C 0 dAddr second_nonce spk_bytes),
        (eip7702SignedTx C key nonce_value chain_id
          (authSigned C 0 dAddr second_nonce spk_bytes)).rlp_encode_signed) := by
  have haddr := address_from_pkey_ok C secondPkeyHex spk_bytes hhex2 hval2 h32
  have hnew := Authorization7702.new_eq C 0 dAddr second_nonce secondPkeyHex
    spk_bytes hhex2 hval2 h32 h64
  have ht := take32_length (h64 (C.keccak ((eip7702MainTx chain_id nonce_value
    (authSigned C 0 dAddr second_nonce spk_bytes)).rlp_encode_unsigned)) key)
  have hd := drop_take32_length (h64 (C.keccak ((eip7702MainTx chain_id nonce_value
    (authSigned C 0 dAddr second_nonce spk_bytes)).rlp_encode_unsigned)) key)
  simp [eip7702Branch, haddr, harg, hnew, eip7702SignedTx, bytes32_to_u256,
    h32, ht, hd]

/-- Claim C4: the legacy branch embeds `v = recoveryId + 2*chainId + 35`
(so with chain id 1337 the value is 2709 or 2710 when the recovery id is 0
or 1), while the typed branches (1559 and 7702) and the authorization
builder embed `yParity = recoveryId` as-is, never folded with the chain
id. -/
theorem claim_C4 (C : Crypto) (key : List Nat)
    (nonce_value chain_id second_nonce : Nat)
    (h32 : ∀ x, (C.keccak x).length = 32)
    (h64 : ∀ d k, ((C.signRecoverable d k).2).length = 64)
    (hval : ∀ k, C.secretKeyValid k = true) :
    legacyBranch C key nonce_value chain_id =
      .ok (legacySignedTx C key nonce_value chain_id,
        (legacySignedTx C key nonce_value chain_id).rlp_encode_signed) ∧
    (legacySignedTx C key nonce_value chain_id).v =
      (C.signRecoverable
        (C.keccak ((legacyMainTx nonce_value).rlp_encode_unsigned chain_id))
        key).1 + 2 * chain_id + 35 ∧
    (((C.signRecoverable
        (C.keccak ((legacyMainTx nonce_value).rlp_encode_unsigned 1337))
        key).1 = 0 ∨
      (C.signRecoverable
        (C.keccak ((legacyMainTx nonce_value).rlp_encode_unsigned 1337))
        key).1 = 1) →
      ((legacySignedTx C key nonce_value 1337).v = 2709 ∨
       (legacySignedTx C key nonce_value 1337).v = 2710)) ∧
    eip1559Branch C key nonce_value chain_id =
      .ok (eip1559SignedTx C key nonce_value chain_id,
        (eip1559SignedTx C key nonce_value chain_id).rlp_encode_signed) ∧
    (eip1559SignedTx C key nonce_value chain_id).y_parity =
      (C.signRecoverable
        (C.keccak ((eip1559MainTx chain_id nonce_value).rlp_encode_unsigned))
        key).1 ∧
    eip7702Branch C key nonce_value chain_id second_nonce none =
      .ok (eip7702SignedTx C key nonce_value chain_id
          (authSigned C 0 delegateDefault second_nonce secondPkeyBytes),
        (eip7702SignedTx C key nonce_value chain_id
          (authSigned C 0 delegateDefault second_nonce secondPkeyBytes)).rlp_encode_signed) ∧
    (eip7702SignedTx C key nonce_value chain_id
        (authSigned C 0 delegateDefault second_nonce secondPkeyBytes)).y_parity =
      (C.signRecoverable
        (C.keccak ((eip7702MainTx chain_id nonce_value
          (authSigned C 0 delegateDefault second_nonce secondPkeyBytes)).rlp_encode_unsigned))
        key).1 ∧
    (authSigned C 0 delegateDefault second_nonce secondPkeyBytes).y_parity =
      (C.signRecoverable
        (C.keccak (authSigningPreimage 0 delegateDefault second_nonce))
        secondPkeyBytes).1 := by
  refine ⟨legacyBranch_eq C key nonce_value chain_id h32 h64, rfl, ?_,
    eip1559Branch_eq C key nonce_value chain_id h32 h64, rfl,
    eip7702Branch_eq C key nonce_value chain_id second_nonce none
      delegateDefault secondPkeyBytes (by decide) (hval secondPkeyBytes)
      (by decide) h32 h64, rfl, rfl⟩
  intro hr
  have hv : (legacySignedTx C key nonce_value 1337).v =
      (C.signRecoverable
        (C.keccak ((legacyMainTx nonce_value).rlp_encode_unsigned 1337))
        key).1 + 2 * 1337 + 35 := rfl
  rcases hr with h | h <;> rw [h] at hv
  · left; omega
  · right; omega

/-- Witness for C4 at the concrete crypto instance (whose recovery id is 1),
key `[0]`, nonce 0, chain id 1337 and delegating nonce 0. -/
theorem claim_C4_witness :
    legacyBranch cryptoFix [0] 0 1337 =
      .ok (legacySignedTx cryptoFix [0] 0 1337,
        (legacySignedTx cryptoFix [0] 0 1337).rlp_encode_signed) ∧
    ((legacySignedTx cryptoFix [0] 0 1337).v = 2709 ∨
     (legacySignedTx cryptoFix [0] 0 1337).v = 2710) ∧
    eip7702Branch cryptoFix [0] 0 1337 0 none =
      .ok (eip7702SignedTx cryptoFix [0] 0 1337
          (authSigned cryptoFix 0 delegateDefault 0 secondPkeyBytes),
        (eip7702SignedTx cryptoFix [0] 0 1337
          (authSigned cryptoFix 0 delegateDefault 0 secondPkeyBytes)).rlp_encode_signed) := by
  have h := claim_C4 cryptoFix [0] 0 1337 0
    (fun _ => rfl) (fun _ _ => rfl) (fun _ => rfl)
  exact ⟨h.1, h.2.2.1 (by right; rfl), h.2.2.2.2.2.1⟩

/-- Claim C8: address derivation is the pure pipeline secp256k1 public key →
uncompressed 65 bytes → drop the tag byte → keccak256 → last 20 bytes; on a
hex-decodable key it fails exactly when the scalar is rejected, and that
failure is the invalid-key error (the source's
`expect("invalid private key bytes")`). -/
theorem claim_C8 (C : Crypto) (s : String) (pk_bytes : List Nat)
    (h32 : ∀ x, (C.keccak x).length = 32)
    (hhex : hexDecodeList (trimStart0x s.toList) = some pk_bytes) :
    (C.secretKeyValid pk_bytes = true →
      address_from_pkey C s =
        .ok ⟨(C.keccak ((C.pubkeyUncompressed pk_bytes).drop 1)).drop 12,
          by rw [List.length_drop, h32]⟩) ∧
    (C.secretKeyValid pk_bytes = false →
      address_from_pkey C s = .error (.invalidKey "invalid private key bytes")) := by
  constructor
  · intro hval
    exact address_from_pkey_ok C s pk_bytes hhex hval h32
  · intro hval
    have hhex2 : hexDecodeList (trimStart0x s.data) = some pk_bytes := hhex
    simp [address_from_pkey, hhex, hhex2, hval]

/-- Witness for C8 at the concrete crypto instance and key `"00"`. -/
theorem claim_C8_witness :
    address_from_pkey cryptoFix "00" =
      .ok ⟨(cryptoFix.keccak ((cryptoFix.pubkeyUncompressed [0]).drop 1)).drop 12,
        by decide⟩ :=
  (claim_C8 cryptoFix "00" [0] (fun _ => rfl) (by decide)).1 rfl

/-- Claim C9 counterexample: at the unsupported kind `"eip2930"` the
dispatch fails with the untyped panic `"bad"`, not with a typed
`UnsupportedTransactionKind` error. -/
theorem claim_C9_counterexample :
    mainDispatch cryptoFix "eip2930" none 0 0 = .error (.rustPanic "bad") ∧
    mainDispatch cryptoFix "eip2930" none 0 0 ≠
      .error .unsupportedTransactionKind := by
  exact ⟨by decide, by decide⟩

/-- Claim C9 as amended: when the requested envelope variant is not one of
legacy/1559/7702, construction fails outright with the panic `"bad"`
(an untyped panic, not a typed `UnsupportedTransactionKind` error) rather
than silently defaulting, and no envelope — partial or otherwise — is
returned. -/
theorem claim_C9_amended (C : Crypto) (tx_type : String)
    (delegate_to : Option String) (nonce_value second_nonce : Nat)
    (h32 : ∀ x, (C.keccak x).length = 32)
    (hval : ∀ k, C.secretKeyValid k = true)
    (h1 : tx_type ≠ "legacy") (h2 : tx_type ≠ "1559") (h3 : tx_type ≠ "7702") :
    mainDispatch C tx_type delegate_to nonce_value second_nonce =
      .error (.rustPanic "bad") ∧
    ∀ bytes, mainDispatch C tx_type delegate_to nonce_value second_nonce ≠
      .ok bytes := by
  obtain ⟨bs, hbs⟩ :
      ∃ bs, hexDecodeList (trimStart0x mainPkeyHex.toList) = some bs := ⟨_, rfl⟩
  have hbs2 : hexDecodeList (trimStart0x mainPkeyHex.data) = some bs := hbs
  have haddr := address_from_pkey_ok C mainPkeyHex bs hbs (hval bs) h32
  have hmain : mainDispatch C tx_type delegate_to nonce_value second_nonce =
      .error (.rustPanic "bad") := by
    simp [mainDispatch, hbs, hbs2, hval, haddr, h1, h2, h3]
  exact ⟨hmain, by simp [hmain]⟩

/-- Witness for C9 at the concrete crypto instance and kind `"xyz"`. -/
theorem claim_C9_witness :
    mainDispatch cryptoFix "xyz" none 0 0 = .error (.rustPanic "bad") :=
  (claim_C9_amended cryptoFix "xyz" none 0 0 (fun _ => rfl) (fun _ => rfl)
    (by decide) (by decide) (by decide)).1

/-- Claim C10: a present nonce result string that does not parse as a
base-16 integer makes `get_nonce` return the default nonce 0 instead of
failing; a present result never fails; only an absent result fails. -/
theorem claim_C10 (s : String)
    (hbad : fromStrRadix16U256 (trimStart0x s.toList) = none) :
    get_nonce (some s) = .ok 0 ∧
    get_nonce none = .error (.rustPanic "No result from getTransactionCount") ∧
    (∀ t : String, ∃ n, get_nonce (some t) = .ok n) := by
  refine ⟨?_, rfl, fun t => ⟨_, rfl⟩⟩
  have hbad2 : fromStrRadix16U256 (trimStart0x s.data) = none := hbad
  simp [get_nonce, hbad, hbad2]

/-- Witness for C10 at the unparsable result string `"zz"`. -/
theorem claim_C10_witness : get_nonce (some "zz") = .ok 0 :=
  (claim_C10 "zz" (by decide)).1
